import Mathlib

/-!
Verification of the `cssm` CSS-scoping library (src/cssm.go).

The library walks a CSS token stream produced by an external lexer
(`tdewolff/parse/v2/css`) and rewrites bare class selectors (`.` delimiter
followed by an identifier) by appending `"_" ++ fingerprint`, where the
fingerprint is the unpadded URL-safe base64 encoding of the Adler-32
checksum of the whole ruleset.

The tokenizer is an external collaborator, so the transformer is embedded
at the token level: an input is a `List Tok` and the end of the list plays
the role of the lexer's EOF `ErrorToken` (with an in-memory input the
tdewolff lexer only errors at end of input, and the Go `bytes.Buffer`
writes inside `Process` cannot fail, so the Go error return is always
`nil`; the embedding is therefore total).  The Go control flow of
`Process` (a main loop with one-token lookahead branches for `:`/`@`/`.`
and two inner copy-through loops) is rendered as a state machine that
consumes exactly one token per step; each `Mode` constructor corresponds
to one program point of `Process`:

* `normal`        - top of the main loop (line 50);
* `afterColon d`  - after `ColonToken` was read into `tmp` (line 62), `d`
                    is the pending colon bytes held in `tmp`;
* `afterAt`       - after an `AtKeywordToken` was flushed to `out`
                    (line 100);
* `afterDot`      - after a `.` delimiter was flushed to `out` (line 143);
* `inGlobal bc`   - inside the `:global` copy-through loop (line 78) with
                    brace counter `bc`;
* `inMedia`       - inside the `@media` copy-through loop (line 115);
* `inMediaDot`    - after a `.` delimiter was written inside the `@media`
                    loop (line 124).
-/

namespace Cssm

/-- Token kinds distinguished by `Process`; every other kind of the
tdewolff lexer (whitespace, semicolons, numbers, strings, parens,
comments, ...) behaves identically in the code and is `Other`. -/
inductive TokKind where
  | Ident
  | Delim
  | Colon
  | AtKeyword
  | LeftBrace
  | RightBrace
  | Other
deriving DecidableEq

/-- A token: its kind and its raw bytes (as a string). -/
structure Tok where
  kind : TokKind
  data : String
deriving DecidableEq

/-- Control state of `Process`, see the module comment. -/
inductive Mode where
  | normal
  | afterColon (pending : String)
  | afterAt
  | afterDot
  | inGlobal (bc : Nat)
  | inMedia
  | inMediaDot
deriving DecidableEq

/-- `addScopedName` (cssm.go lines 42-47): the scoped name written to the
output and recorded in the mapping is `rawName + "_" + hash`. -/
def scopedName (h n : String) : String := n ++ "_" ++ h

/-- The loop of `Process` (cssm.go lines 49-162), one token per step.
The mapping is an association list to which `addScopedName` prepends;
`List.lookup` finds the most recent binding, matching Go map lookup.
`out` is the `bytes.Buffer` accumulated so far.

Faithfulness notes, keyed to cssm.go:
* end of input in any mode returns `out` as is: the pending `tmp` bytes of
  a colon lookahead are dropped (line 63 `continue mainLoop` followed by
  the EOF return at line 54), while an at-keyword or dot was already
  flushed to `out` before its lookahead (lines 101, 144);
* `afterColon`: a non-`Ident` or non-`"global"` lookahead flushes
  `tmp` (the colon bytes) and the lookahead token verbatim (lines 67-76);
  the lookahead token itself is not dispatched again;
* `inGlobal`: the brace that takes the counter from 0 to 1 and the brace
  that takes it from 1 to 0 are not copied (lines 83-95); on a
  `RightBrace` the pre-decrement counter decides both the copy (`bc ≠ 1`)
  and the exit (`bc - 1 ≤ 0`, i.e. `bc ≤ 1`);
* `inMedia`: every token is copied first (line 121).  The Go code
  declares `braceCount := 0` inside the loop body (line 123), so the
  counter is re-initialized on every iteration: the `LeftBrace` increment
  has no observable effect and the loop exits at the first `RightBrace`
  (`braceCount--` yields -1 which is ≤ 0, line 136-140);
* `inMediaDot`: a non-`Ident` lookahead is copied and the media loop
  continues (lines 129-132). -/
def procLoop (h : String) : List Tok → Mode → String →
    List (String × String) → String × List (String × String)
  | [], _, out, m => (out, m)
  | t :: ts, mode, out, m =>
    match mode with
    | .normal =>
      match t.kind with
      | .Colon => procLoop h ts (.afterColon t.data) out m
      | .AtKeyword => procLoop h ts .afterAt (out ++ t.data) m
      | .Delim =>
        if t.data = "." then procLoop h ts .afterDot (out ++ t.data) m
        else procLoop h ts .normal (out ++ t.data) m
      | _ => procLoop h ts .normal (out ++ t.data) m
    | .afterColon pending =>
      if t.kind = .Ident ∧ t.data = "global" then
        procLoop h ts (.inGlobal 0) out m
      else
        procLoop h ts .normal (out ++ pending ++ t.data) m
    | .afterAt =>
      if t.kind = .Ident ∧ t.data = "media" then
        procLoop h ts .inMedia (out ++ t.data) m
      else
        procLoop h ts .normal (out ++ t.data) m
    | .afterDot =>
      if t.kind = .Ident then
        procLoop h ts .normal (out ++ scopedName h t.data)
          ((t.data, scopedName h t.data) :: m)
      else
        procLoop h ts .normal (out ++ t.data) m
    | .inGlobal bc =>
      match t.kind with
      | .LeftBrace =>
        procLoop h ts (.inGlobal (bc + 1))
          (if bc = 0 then out else out ++ t.data) m
      | .RightBrace =>
        if bc ≤ 1 then
          procLoop h ts .normal (if bc = 1 then out else out ++ t.data) m
        else
          procLoop h ts (.inGlobal (bc - 1)) (out ++ t.data) m
      | _ => procLoop h ts (.inGlobal bc) (out ++ t.data) m
    | .inMedia =>
      match t.kind with
      | .Delim =>
        if t.data = "." then procLoop h ts .inMediaDot (out ++ t.data) m
        else procLoop h ts .inMedia (out ++ t.data) m
      | .RightBrace => procLoop h ts .normal (out ++ t.data) m
      | _ => procLoop h ts .inMedia (out ++ t.data) m
    | .inMediaDot =>
      if t.kind = .Ident then
        procLoop h ts .inMedia (out ++ scopedName h t.data)
          ((t.data, scopedName h t.data) :: m)
      else
        procLoop h ts .inMedia (out ++ t.data) m

/-- `Process` (cssm.go line 31) at the token level: `h` is the fingerprint
`genHash` computes from the raw ruleset bytes, `ts` the token stream the
external lexer produces from them. -/
def Process (h : String) (ts : List Tok) : String × List (String × String) :=
  procLoop h ts .normal "" []

/-! ### The hasher (`genHash`, cssm.go lines 19-27)

Bytes are `Nat`s below 256.  `hash/adler32` is the standard Adler-32
checksum: `s1 = 1 + Σ bytes (mod 65521)`, `s2 = Σ running s1 (mod 65521)`,
`Sum32 = s2 <<< 16 ||| s1` (the Go implementation batches the modulus but
computes the same residues).  `binary.NativeEndian.PutUint32` serializes
in the byte order of the machine the program runs on, so the serialization
is modelled with the byte order as an explicit parameter. -/

/-- One byte of Adler-32 state update. -/
def adler32Step (s : Nat × Nat) (b : Nat) : Nat × Nat :=
  let a := (s.1 + b) % 65521
  (a, (s.2 + a) % 65521)

/-- `adler32.New(); hash.Write(in); hash.Sum32()` (cssm.go lines 22-25). -/
def adler32 (bs : List Nat) : Nat :=
  let s := bs.foldl adler32Step (1, 0)
  s.2 * 65536 + s.1

/-- The byte order of the machine: `binary.NativeEndian` is one of the
two, depending on the platform executing the program. -/
inductive ByteOrder where
  | le
  | be
deriving DecidableEq

/-- `PutUint32` in the given byte order (cssm.go line 25 uses
`binary.NativeEndian`, i.e. whichever order the platform has). -/
def putUint32 (e : ByteOrder) (n : Nat) : List Nat :=
  let b0 := n % 256
  let b1 := n / 256 % 256
  let b2 := n / 65536 % 256
  let b3 := n / 16777216 % 256
  match e with
  | .le => [b0, b1, b2, b3]
  | .be => [b3, b2, b1, b0]

/-- The URL-safe base64 alphabet used by `base64.RawURLEncoding`. -/
def b64UrlAlphabet : List Char :=
  "ABCDEFGHIJKLMNOPQRSTUVWXYZabcdefghijklmnopqrstuvwxyz0123456789-_".toList

/-- The alphabet character for a 6-bit group. -/
def b64char (n : Nat) : Char := b64UrlAlphabet.getD (n % 64) 'A'

/-- Unpadded base64: groups of 3 bytes give 4 characters; a 1-byte
remainder gives 2 characters and a 2-byte remainder 3 characters
(`base64.RawURLEncoding.EncodeToString`, cssm.go line 26). -/
def b64encode : List Nat → List Char
  | b0 :: b1 :: b2 :: rest =>
    b64char (b0 / 4) :: b64char (b0 % 4 * 16 + b1 / 16) ::
      b64char (b1 % 16 * 4 + b2 / 64) :: b64char (b2 % 64) :: b64encode rest
  | [b0, b1] =>
    [b64char (b0 / 4), b64char (b0 % 4 * 16 + b1 / 16), b64char (b1 % 16 * 4)]
  | [b0] => [b64char (b0 / 4), b64char (b0 % 4 * 16)]
  | [] => []

/-- `genHash` (cssm.go lines 19-27) on a platform whose native byte order
is `e`: the Adler-32 checksum of the input, serialized by
`binary.NativeEndian.PutUint32`, encoded by `base64.RawURLEncoding`. -/
def genHashWith (e : ByteOrder) (input : List Nat) : String :=
  let checksum := putUint32 e (adler32 input)
  String.mk (b64encode checksum)

/-- Membership in the URL-safe base64 alphabet. -/
def isB64UrlChar (c : Char) : Bool :=
  (decide ('A' ≤ c) && decide (c ≤ 'Z')) ||
    (decide ('a' ≤ c) && decide (c ≤ 'z')) ||
    (decide ('0' ≤ c) && decide (c ≤ '9')) || c == '-' || c == '_'

/-! ### The `Collector` (cssm.go lines 165-236)

The collector calls `Process(rules)`, which lexes the raw string and
hashes its bytes; both of those are done by external collaborators
(`tdewolff` lexer, `genHash` over UTF-8 bytes), so the collector model
takes the lexer `lex` and the fingerprint function `gh` as parameters and
the state-updating operations return the new state explicitly.  The Go
zero value of `Collector` has a nil map and an empty buffer. -/

/-- Collector state: the memo cache `rules` and the accumulated styles
buffer (cssm.go lines 168-171). -/
structure Collector where
  rules : List (String × List (String × String))
  styles : String
deriving DecidableEq

/-- The zero-value `Collector`: nil cache, empty buffer. -/
def Collector.empty : Collector := ⟨[], ""⟩

/-- `Collector.Classes` (cssm.go lines 174-189): return the cached mapping
if present; otherwise process the ruleset, append the rewritten styles and
a newline to the buffer, and cache the mapping under the exact text. -/
def Collector.classes (lex : String → List Tok) (gh : String → String)
    (c : Collector) (rules : String) :
    List (String × String) × Collector :=
  match c.rules.lookup rules with
  | some m => (m, c)
  | none =>
    let r := Process (gh rules) (lex rules)
    (r.2, ⟨(rules, r.2) :: c.rules, c.styles ++ r.1 ++ "\n"⟩)

/-- The `panic(fmt.Sprintf("no class found %q", name))` message of
`Collector.C` (cssm.go lines 202, 212); `%q` wraps the name in quotes. -/
def classErr (n : String) : String :=
  "no class found " ++ "\"" ++ n ++ "\""

/-- The `strings.Builder` loop of `Collector.C` (cssm.go lines 204-214):
a space before every name but the first, then the mapped name; a missing
name panics, modelled as `Except.error`. -/
def buildAttr (mapping : List (String × String)) :
    List String → String → Bool → Except String String
  | [], acc, _ => .ok acc
  | n :: rest, acc, first =>
    let acc1 := if first then acc else acc ++ " "
    match mapping.lookup n with
    | some v => buildAttr mapping rest (acc1 ++ v) false
    | none => .error (classErr n)

/-- `Collector.C` (cssm.go lines 193-216): resolve every requested class
name through the ruleset's mapping into the class attribute value
(`h.Class` applied to the joined string); a missing name panics, modelled
as `Except.error` carrying the panic message. -/
def Collector.attrOf (lex : String → List Tok) (gh : String → String)
    (c : Collector) (rules : String) (classNames : List String) :
    Except String String × Collector :=
  let r := c.classes lex gh rules
  match classNames with
  | [n] =>
    match r.1.lookup n with
    | some v => (.ok v, r.2)
    | none => (.error (classErr n), r.2)
  | _ => (buildAttr r.1 classNames "" true, r.2)

/-- `Collector.Render` (cssm.go lines 225-236): the bytes written to the
sink, and the collector afterwards.  `c.styles.WriteTo(w)` (line 229) is
`bytes.Buffer.WriteTo`, which writes until the buffer is drained: after a
render the styles buffer is empty (the cache is untouched). -/
def Collector.render (c : Collector) : String × Collector :=
  ("<style>" ++ c.styles ++ "</style>", ⟨c.rules, ""⟩)

/-! ### Concrete inputs

Token streams as the tdewolff CSS lexer produces them for the literal
inputs of the spec's scenarios: `.` before a letter is a `DelimToken`,
an identifier is an `IdentToken`, `:` a `ColonToken`, `@media` one
`AtKeywordToken` (keyword characters included), whitespace and `;` are
their own token kinds (here `Other`). -/

/-- The lexing of `:global {.test-class { color: red; font-size: large; }}`
(the `ValidCSSModules_GlobalKeyword` test payload). -/
def globalToks : List Tok :=
  [⟨.Colon, ":"⟩, ⟨.Ident, "global"⟩, ⟨.Other, " "⟩, ⟨.LeftBrace, "\x7b"⟩,
   ⟨.Delim, "."⟩, ⟨.Ident, "test-class"⟩, ⟨.Other, " "⟩,
   ⟨.LeftBrace, "\x7b"⟩, ⟨.Other, " "⟩, ⟨.Ident, "color"⟩, ⟨.Colon, ":"⟩,
   ⟨.Other, " "⟩, ⟨.Ident, "red"⟩, ⟨.Other, ";"⟩, ⟨.Other, " "⟩,
   ⟨.Ident, "font-size"⟩, ⟨.Colon, ":"⟩, ⟨.Other, " "⟩,
   ⟨.Ident, "large"⟩, ⟨.Other, ";"⟩, ⟨.Other, " "⟩,
   ⟨.RightBrace, "\x7d"⟩, ⟨.RightBrace, "\x7d"⟩]

/-- The lexing of `:global {.test-class { color: red; }` (the
`InvalidCSSModules_GlobalBlockMalformed` test payload, final closing
brace missing). -/
def globalTruncToks : List Tok :=
  [⟨.Colon, ":"⟩, ⟨.Ident, "global"⟩, ⟨.Other, " "⟩, ⟨.LeftBrace, "\x7b"⟩,
   ⟨.Delim, "."⟩, ⟨.Ident, "test-class"⟩, ⟨.Other, " "⟩,
   ⟨.LeftBrace, "\x7b"⟩, ⟨.Other, " "⟩, ⟨.Ident, "color"⟩, ⟨.Colon, ":"⟩,
   ⟨.Other, " "⟩, ⟨.Ident, "red"⟩, ⟨.Other, ";"⟩, ⟨.Other, " "⟩,
   ⟨.RightBrace, "\x7d"⟩]

/-- The lexing of `a:`: an identifier, then a trailing colon. -/
def aColonToks : List Tok := [⟨.Ident, "a"⟩, ⟨.Colon, ":"⟩]

/-- The lexing of `..a`: two `.` delimiters, then an identifier.  The
second delimiter is immediately followed by an identifier, and no
`:global` block is anywhere in sight. -/
def dotDotA : List Tok :=
  [⟨.Delim, "."⟩, ⟨.Delim, "."⟩, ⟨.Ident, "a"⟩]

/-- A media-branch stream with a nested brace pair before a `:global`
block: `@media` at-keyword, an immediately following `media` identifier
(the shape cssm.go line 112 tests for), then
`{ { } :global { .b } }`. -/
def mediaNestedToks : List Tok :=
  [⟨.AtKeyword, "@media"⟩, ⟨.Ident, "media"⟩, ⟨.LeftBrace, "\x7b"⟩,
   ⟨.LeftBrace, "\x7b"⟩, ⟨.RightBrace, "\x7d"⟩, ⟨.Colon, ":"⟩,
   ⟨.Ident, "global"⟩, ⟨.LeftBrace, "\x7b"⟩, ⟨.Delim, "."⟩,
   ⟨.Ident, "b"⟩, ⟨.RightBrace, "\x7d"⟩, ⟨.RightBrace, "\x7d"⟩]

/-- Whether a stream contains a `.` delimiter immediately followed by an
identifier token somewhere. -/
def hasDotIdentPair : List Tok → Bool
  | ⟨.Delim, d⟩ :: t2 :: ts =>
    (d == "." && t2.kind == TokKind.Ident) || hasDotIdentPair (t2 :: ts)
  | _ :: ts => hasDotIdentPair ts
  | [] => false

/-- Whether a stream contains the identifier `global` at all (a stream
without it cannot contain a `:global` block). -/
def hasGlobalIdent (ts : List Tok) : Bool :=
  ts.any fun t => t.kind == TokKind.Ident && t.data == "global"

/-- A lexer stub whose every ruleset lexes to one opaque token `a`;
used to drive a collector to a nonempty styles buffer. -/
def lexA : String → List Tok := fun _ => [⟨.Other, "a"⟩]

/-- A fingerprint stub. -/
def ghH : String → String := fun _ => "H"

/-- The collector obtained from the zero value by one `Classes` call:
its styles buffer holds the rewritten ruleset plus the newline. -/
def collectorA : Collector := (Collector.empty.classes lexA ghH "x").2

/-! ## Theorems -/

/-- C2: on the `:global { ... }` block input, `Process` emits the inner
content byte-identical to the source with the `:global` marker and the
wrapping braces removed (the space before the wrapper brace is kept, so
the output starts with a space), scopes nothing, and returns an empty
mapping; this holds whatever the stylesheet's fingerprint is. -/
theorem global_block_verbatim_unscoped (h : String) :
    Process h globalToks =
      (" .test-class \x7b color: red; font-size: large; \x7d", []) := rfl

/-- C8: on the `:global` block input whose closing brace is missing,
`Process` consumes the remainder of the stream unscoped (wrapper brace
stripped), terminates at end-of-stream with the expected output and an
empty mapping; the embedding is total, matching the Go code whose only
error sources (a non-EOF lexer error, a `bytes.Buffer` write failure)
cannot occur on an in-memory input. -/
theorem global_block_truncated_no_error (h : String) :
    Process h globalTruncToks = (" .test-class \x7b color: red; \x7d", []) :=
  rfl

/-- C10: when the input ends right after a colon (`a:`), the pending
lookahead buffer holding the colon is discarded at end-of-stream rather
than flushed: the output is `a` and the mapping is empty. -/
theorem trailing_colon_dropped (h : String) :
    Process h aColonToks = ("a", []) := rfl

/-- C1, counterexample: the stream of `..a` has a `.` delimiter
immediately followed by an identifier and contains no `global` ident at
all (hence no `:global` block), yet `Process` records nothing: the first
`.` check consumes the second `.` as its one-token lookahead, so the pair
`. a` is never dispatched and `a` is not a key of the mapping. -/
theorem bare_class_missed_after_lookahead :
    hasDotIdentPair dotDotA = true ∧
    hasGlobalIdent dotDotA = false ∧
    (Process "h1" dotDotA).2.lookup "a" = none ∧
    (Process "h1" dotDotA).2 = [] ∧
    (Process "h1" dotDotA).1 = "..a" :=
  ⟨rfl, rfl, rfl, rfl, rfl⟩

/-- C3: on a media-branch stream with a nested `{ }` pair, the
copy-through loop exits at the *first* `RightBrace` (the Go code declares
`braceCount := 0` inside the loop body, cssm.go line 123, so the counter
is re-initialized every iteration and `RightBrace` always drives it to
-1 ≤ 0).  The rest of the stream is handled by the main loop again: the
`:global` block that is still inside the media block's braces is honoured
as a global block, so the class `b` inside it is never scoped — under the
claimed matching-brace behaviour `b` would be a key of the mapping. -/
theorem media_loop_exits_at_first_rbrace :
    (Process "h3" mediaNestedToks).1 = "@mediamedia\x7b\x7b\x7d.b\x7d" ∧
    (Process "h3" mediaNestedToks).2 = [] ∧
    (Process "h3" mediaNestedToks).2.lookup "b" = none :=
  ⟨rfl, rfl, rfl⟩

/-- C4, counterexample: the fingerprint of the empty input differs
between a little-endian and a big-endian platform, because cssm.go line
25 serializes the checksum with `binary.NativeEndian`: the same input
bytes do not yield the same fingerprint string regardless of the
machine's native endianness. -/
theorem fingerprint_differs_across_endianness :
    genHashWith ByteOrder.le [] ≠ genHashWith ByteOrder.be [] := by
  decide

/-- Helper: prepending a canonically-scoped binding preserves a
canonically-scoped lookup result. -/
theorem lookup_cons_scoped (h n d : String) (m : List (String × String))
    (hm : m.lookup n = some (scopedName h n)) :
    List.lookup n ((d, scopedName h d) :: m) = some (scopedName h n) := by
  by_cases hd : n = d
  · subst hd
    simp [List.lookup]
  · have hbeq : (n == d) = false := by
      simpa using hd
    simp [List.lookup, hbeq, hm]

/-- Helper: every binding `procLoop` ever adds maps a key `k` to
`scopedName h k`, so a canonically-scoped lookup result is preserved by
the rest of the run. -/
theorem procLoop_lookup_mono (h : String) :
    ∀ (ts : List Tok) (mode : Mode) (out : String)
      (m : List (String × String)) (n : String),
      m.lookup n = some (scopedName h n) →
      ((procLoop h ts mode out m).2).lookup n = some (scopedName h n) := by
  intro ts
  induction ts with
  | nil =>
    intro mode out m n hm
    simpa [procLoop] using hm
  | cons t ts ih =>
    intro mode out m n hm
    obtain ⟨k, d⟩ := t
    cases mode <;> cases k <;>
      simp only [procLoop] <;>
      first
        | exact ih _ _ _ _ hm
        | (split <;>
            first
              | exact ih _ _ _ _ hm
              | exact ih _ _ _ _ (lookup_cons_scoped h n d m hm))

/-- C1, amended: every bare class selector (`.` delimiter immediately
followed by an Ident) that the transformer dispatches — in the main
loop's Normal mode or inside the media copy-through loop, rather than
inside a `:global` block or consumed as the one-token lookahead of an
immediately preceding colon, at-keyword or `.` check — is recorded in the
final mapping with the identifier as the key and the value equal to the
identifier, an underscore, and the stylesheet's fingerprint. -/
theorem bare_class_scoped_amended (h : String) (ts : List Tok) (mode : Mode)
    (out : String) (m : List (String × String)) (n : String)
    (rest : List Tok)
    (hmode : mode = Mode.normal ∨ mode = Mode.inMedia)
    (hts : ts = ⟨.Delim, "."⟩ :: ⟨.Ident, n⟩ :: rest) :
    ((procLoop h ts mode out m).2).lookup n = some (scopedName h n) := by
  subst hts
  have hcons : List.lookup n ((n, scopedName h n) :: m) =
      some (scopedName h n) := by
    simp [List.lookup]
  rcases hmode with rfl | rfl
  · show ((procLoop h rest .normal (out ++ "." ++ scopedName h n)
        ((n, scopedName h n) :: m)).2).lookup n = some (scopedName h n)
    exact procLoop_lookup_mono h rest _ _ _ n hcons
  · show ((procLoop h rest .inMedia (out ++ "." ++ scopedName h n)
        ((n, scopedName h n) :: m)).2).lookup n = some (scopedName h n)
    exact procLoop_lookup_mono h rest _ _ _ n hcons

/-- C1, witness: the amended theorem applied to the stream of `.a` in
Normal mode with fingerprint `H`. -/
theorem bare_class_scoped_amended_wit :
    ((procLoop "H" [⟨.Delim, "."⟩, ⟨.Ident, "a"⟩] .normal "" []).2).lookup
      "a" = some (scopedName "H" "a") :=
  bare_class_scoped_amended "H" _ .normal "" [] "a" [] (Or.inl rfl) rfl

/-- C4, amended: the fingerprint is a pure, deterministic function of the
input bytes and the machine's native byte order: for a fixed byte order
the same input bytes always yield the same fingerprint, and the
fingerprint equals the unpadded URL-safe base64 encoding of the Adler-32
checksum serialized in that (native, not platform-independent) order. -/
theorem fingerprint_deterministic_per_platform (e1 e2 : ByteOrder)
    (bs1 bs2 : List Nat) (he : e1 = e2) (hb : bs1 = bs2) :
    genHashWith e1 bs1 = genHashWith e2 bs2 ∧
    genHashWith e1 bs1 =
      String.mk (b64encode (putUint32 e1 (adler32 bs1))) := by
  subst he
  subst hb
  exact ⟨rfl, rfl⟩

/-- C4, witness: the amended theorem at the one-byte input `0x2e` on a
little-endian machine. -/
theorem fingerprint_deterministic_per_platform_wit :
    genHashWith ByteOrder.le [46] = genHashWith ByteOrder.le [46] ∧
    genHashWith ByteOrder.le [46] =
      String.mk (b64encode (putUint32 ByteOrder.le (adler32 [46]))) :=
  fingerprint_deterministic_per_platform ByteOrder.le ByteOrder.le
    [46] [46] rfl rfl

/-- C7: calling `Classes` a second time with a bytewise-identical ruleset
text returns the same mapping as the first call and leaves the whole
collector state — in particular the accumulated styles buffer — exactly
as it was after the first call: the rewritten output and its separating
newline are appended only once per distinct ruleset text. -/
theorem classes_idempotent_on_cache (lex : String → List Tok)
    (gh : String → String) (c : Collector) (r : String) :
    ((c.classes lex gh r).2).classes lex gh r = c.classes lex gh r := by
  cases hl : c.rules.lookup r with
  | some m => simp [Collector.classes, hl]
  | none => simp [Collector.classes, hl, List.lookup]

/-- C6, counterexample: the styles buffer does shrink.  `Render` drains
the buffer (`bytes.Buffer.WriteTo`), so after one `Classes` call that
made the buffer nonempty, rendering twice in succession emits different
bytes: the first render emits the accumulated CSS, the second an empty
envelope. -/
theorem render_drains_styles_buffer :
    collectorA.styles = "a\n" ∧
    (collectorA.render.2).styles = "" ∧
    (collectorA.render.2.render).1 ≠ collectorA.render.1 := by
  refine ⟨rfl, rfl, ?_⟩
  decide

/-- Helper: the collector state `attrOf` returns is the one `classes`
produced — the attribute helper mutates only through `classes`. -/
theorem attrOf_state (lex : String → List Tok) (gh : String → String)
    (c : Collector) (r : String) (names : List String) :
    (c.attrOf lex gh r names).2 = (c.classes lex gh r).2 := by
  match names with
  | [] => rfl
  | [n] =>
    show (match (c.classes lex gh r).1.lookup n with
      | some v => (Except.ok v, (c.classes lex gh r).2)
      | none =>
        (Except.error (classErr n), (c.classes lex gh r).2)).2 =
      (c.classes lex gh r).2
    cases (c.classes lex gh r).1.lookup n <;> rfl
  | n0 :: n1 :: rest => rfl

/-- C6, amended: under `Classes` and the attribute helper the styles
buffer only ever grows (unchanged on a cache hit, extended by the
rewritten output plus a newline otherwise); `Render`, however, emits the
envelope around the accumulated bytes and drains the buffer, so it is
empty afterwards and a second render in succession does not repeat the
accumulated CSS. -/
theorem collector_styles_growth (lex : String → List Tok)
    (gh : String → String) (c : Collector) (r : String)
    (names : List String) :
    (∃ ext, ((c.classes lex gh r).2).styles = c.styles ++ ext) ∧
    (∃ ext, ((c.attrOf lex gh r names).2).styles = c.styles ++ ext) ∧
    c.render.1 = "<style>" ++ c.styles ++ "</style>" ∧
    (c.render.2).styles = "" := by
  have hclasses : ∃ ext, ((c.classes lex gh r).2).styles = c.styles ++ ext := by
    cases hl : c.rules.lookup r with
    | some m =>
      exact ⟨"", by simp [Collector.classes, hl]⟩
    | none =>
      exact ⟨(Process (gh r) (lex r)).1 ++ "\n", by
        simp [Collector.classes, hl, String.append_assoc]⟩
  refine ⟨hclasses, ?_, rfl, rfl⟩
  rw [attrOf_state]
  exact hclasses

/-- Helper: every character the base64 alphabet can produce satisfies
`isB64UrlChar`. -/
theorem isB64UrlChar_b64char (i : Nat) : isB64UrlChar (b64char i) = true := by
  have h64 : i % 64 < 64 := Nat.mod_lt _ (by norm_num)
  have hall : ∀ j < 64, isB64UrlChar (b64UrlAlphabet.getD j 'A') = true := by
    decide
  simpa [b64char] using hall _ h64

/-- Helper: every character `b64encode` emits is in the URL-safe base64
alphabet. -/
theorem b64encode_chars : ∀ (l : List Nat), ∀ c ∈ b64encode l,
    isB64UrlChar c = true
  | b0 :: b1 :: b2 :: rest => by
    intro c hc
    simp only [b64encode, List.mem_cons] at hc
    rcases hc with rfl | rfl | rfl | rfl | hc
    · exact isB64UrlChar_b64char _
    · exact isB64UrlChar_b64char _
    · exact isB64UrlChar_b64char _
    · exact isB64UrlChar_b64char _
    · exact b64encode_chars rest c hc
  | [b0, b1] => by
    intro c hc
    simp only [b64encode, List.mem_cons, List.not_mem_nil, or_false] at hc
    rcases hc with rfl | rfl | rfl <;> exact isB64UrlChar_b64char _
  | [b0] => by
    intro c hc
    simp only [b64encode, List.mem_cons, List.not_mem_nil, or_false] at hc
    rcases hc with rfl | rfl <;> exact isB64UrlChar_b64char _
  | [] => by
    intro c hc
    simp [b64encode] at hc

/-- C9: for every input byte sequence (and either native byte order), the
fingerprint is a string of exactly 6 characters, each drawn from the
URL-safe base64 alphabet (letters, digits, `-`, `_`): it is the unpadded
base64url encoding of the 4 checksum bytes. -/
theorem fingerprint_six_urlsafe_chars (e : ByteOrder) (bs : List Nat) :
    (genHashWith e bs).length = 6 ∧
    ∀ c ∈ (genHashWith e bs).data, isB64UrlChar c = true := by
  refine ⟨?_, ?_⟩
  · cases e <;> rfl
  · intro c hc
    exact b64encode_chars (putUint32 e (adler32 bs)) c hc

/-- Helper: if any requested name is missing from the mapping, the
builder loop of `Collector.C` reaches a missing name and fails there,
returning no built value. -/
theorem buildAttr_missing (mapping : List (String × String)) :
    ∀ (names : List String) (acc : String) (first : Bool) (n : String),
      n ∈ names → mapping.lookup n = none →
      ∃ miss, miss ∈ names ∧ mapping.lookup miss = none ∧
        buildAttr mapping names acc first = .error (classErr miss) := by
  intro names
  induction names with
  | nil =>
    intro acc first n hn _
    simp at hn
  | cons n0 rest ih =>
    intro acc first n hn hnone
    cases hl : mapping.lookup n0 with
    | none =>
      exact ⟨n0, List.mem_cons_self n0 rest, hl, by
        simp [buildAttr, hl]⟩
    | some v =>
      have hn' : n ∈ rest := by
        rcases List.mem_cons.1 hn with rfl | hmem
        · rw [hl] at hnone
          cases hnone
        · exact hmem
      obtain ⟨miss, hm1, hm2, hm3⟩ :=
        ih ((if first then acc else acc ++ " ") ++ v) false n hn' hnone
      refine ⟨miss, List.mem_cons_of_mem n0 hm1, hm2, ?_⟩
      simpa [buildAttr, hl] using hm3

/-- C5: when the class-attribute helper is asked to resolve a class name
absent from the ruleset's mapping, it fails (the Go code panics; the
panic is modelled as `Except.error`) with an error naming a missing
class, and never hands any attribute value — empty, partial or
substituted — back to the caller. -/
theorem missing_class_always_errors (lex : String → List Tok)
    (gh : String → String) (c : Collector) (rules : String)
    (names : List String) (n : String)
    (hn : n ∈ names)
    (hmiss : ((c.classes lex gh rules).1).lookup n = none) :
    ∃ miss, miss ∈ names ∧
      ((c.classes lex gh rules).1).lookup miss = none ∧
      (c.attrOf lex gh rules names).1 = .error (classErr miss) ∧
      ∀ v, (c.attrOf lex gh rules names).1 ≠ Except.ok v := by
  match names with
  | [] => simp at hn
  | [n0] =>
    have hn0 : n = n0 := by simpa using hn
    subst hn0
    refine ⟨n, by simp, hmiss, ?_, ?_⟩
    · show (match (c.classes lex gh rules).1.lookup n with
        | some v => (Except.ok v, (c.classes lex gh rules).2)
        | none =>
          (Except.error (classErr n),
            (c.classes lex gh rules).2)).1 = .error (classErr n)
      rw [hmiss]
    · intro v
      show (match (c.classes lex gh rules).1.lookup n with
        | some v => (Except.ok v, (c.classes lex gh rules).2)
        | none =>
          (Except.error (classErr n),
            (c.classes lex gh rules).2)).1 ≠ Except.ok v
      rw [hmiss]
      simp
  | n0 :: n1 :: rest =>
    obtain ⟨miss, hm1, hm2, hm3⟩ :=
      buildAttr_missing ((c.classes lex gh rules).1)
        (n0 :: n1 :: rest) "" true n hn hmiss
    refine ⟨miss, hm1, hm2, hm3, ?_⟩
    intro v
    rw [show (c.attrOf lex gh rules (n0 :: n1 :: rest)).1 =
      buildAttr ((c.classes lex gh rules).1) (n0 :: n1 :: rest) "" true
      from rfl, hm3]
    simp

/-- C5, witness: the zero-value collector with a stub lexer and
fingerprint, asked for the never-defined class `missing` of the empty
ruleset, errors naming it. -/
theorem missing_class_always_errors_wit :
    ∃ miss, miss ∈ ["missing"] ∧
      ((Collector.empty.classes lexA ghH "").1).lookup miss = none ∧
      (Collector.empty.attrOf lexA ghH "" ["missing"]).1 =
        .error (classErr miss) ∧
      ∀ v, (Collector.empty.attrOf lexA ghH "" ["missing"]).1 ≠
        Except.ok v :=
  missing_class_always_errors lexA ghH Collector.empty "" ["missing"]
    "missing" (by simp) rfl

end Cssm
